/-
Verification of the ORCA AIS backend (src/backend/ingest_service.py,
src/backend/api_service.py, src/backend/config.py) against its
natural-language specification.

Shallow embedding conventions:
- Python floats are modelled as rationals (ℚ); all comparisons in the code
  are order comparisons, which ℚ models exactly.
- Wall-clock instants (time.time(), datetime, SQL NOW()) are modelled as ℚ
  values measured in seconds, passed explicitly where the code reads a clock.
- Python strings that are only parsed (date strings) are modelled by their
  parse result; strings that are compared verbatim stay String; the geohash
  string is modelled as List Char.
- Python dicts keyed by MMSI (the in-memory batch, the vessels table) are
  modelled as association lists with in-place replacement, which preserves
  Python-dict/SQL-row identity semantics including insertion order.
- Fallible operations (json.loads, extract_vessel_data, the upsert
  transaction) are modelled with Option / an explicit failure flag; a failed
  transaction leaves the store unchanged (rollback semantics).
-/

import Mathlib

namespace Orca

/-! ## Data model -/

/-- A successfully JSON-parsed inbound feed message, fields as read by
`extract_vessel_data`: `MetaData.MMSI`, `MetaData.ShipType`,
`MetaData.time_utc`, `Message.PositionReport.{Latitude, Longitude, Cog, Sog}`
plus the top-level `MessageType`.  The `time_utc` string is modelled by its
parse result: `none` = field absent, `some none` = present but unparsable,
`some (some t)` = parses to instant `t`. -/
structure ParsedMsg where
  messageType : Option String
  mmsi : Option Int
  shipType : Option Int
  time_utc : Option (Option ℚ)
  latitude : Option ℚ
  longitude : Option ℚ
  cog : Option ℚ
  sog : Option ℚ
deriving DecidableEq

/-- A raw message taken from the ingress queue: either a payload that
`json.loads` rejects, or a parsed message. -/
inductive RawMsg
  | malformed
  | parsed (m : ParsedMsg)
deriving DecidableEq

/-- The validated record built by `extract_vessel_data`
(`processed_data` dict in the source). -/
structure VesselRecord where
  mmsi : Int
  latitude : ℚ
  longitude : ℚ
  course : Option ℚ
  speed : Option ℚ
  ship_type : Option Int
  geohash : List Char
  geohash_5 : List Char
  last_updated : ℚ
deriving DecidableEq

/-! ## Spatial key derivation (pygeohash `encode`, called at
`ingest_service.py:219-220`)

The standard geohash algorithm as implemented by `pygeohash.encode`:
alternately bisect the longitude and latitude intervals, emit one base32
character per 5 bits, `precision` characters in total. -/

/-- Current bisection intervals of the geohash encoother. -/
structure GHRange where
  latLo : ℚ
  latHi : ℚ
  lonLo : ℚ
  lonHi : ℚ
deriving DecidableEq

/-- One bit of the geohash: bisect the longitude interval on even bit
positions, the latitude interval on odd ones; the bit is set iff the
coordinate is strictly above the midpoint. -/
def ghBit (lat lon : ℚ) (even : Bool) (r : GHRange) : Bool × GHRange :=
  if even then
    let mid := (r.lonLo + r.lonHi) / 2
    if mid < lon then (true, { r with lonLo := mid }) else (false, { r with lonHi := mid })
  else
    let mid := (r.latLo + r.latHi) / 2
    if mid < lat then (true, { r with latLo := mid }) else (false, { r with latHi := mid })

def bitVal (b : Bool) : Nat := if b then 1 else 0

/-- Five consecutive bits, OR-ed with weights 16,8,4,2,1 into one base32
digit; returns the digit, the parity for the next character and the
updated intervals. -/
def ghCharStep (lat lon : ℚ) (even : Bool) (r : GHRange) : Nat × Bool × GHRange :=
  let s0 := ghBit lat lon even r
  let s1 := ghBit lat lon (!even) s0.2
  let s2 := ghBit lat lon even s1.2
  let s3 := ghBit lat lon (!even) s2.2
  let s4 := ghBit lat lon even s3.2
  (16 * bitVal s0.1 + 8 * bitVal s1.1 + 4 * bitVal s2.1 + 2 * bitVal s3.1 + bitVal s4.1,
   !even, s4.2)

/-- The geohash base32 alphabet. -/
def base32chars : List Char :=
  ['0', '1', '2', '3', '4', '5', '6', '7', '8', '9', 'b', 'c', 'd', 'e', 'f', 'g',
   'h', 'j', 'k', 'm', 'n', 'p', 'q', 'r', 's', 't', 'u', 'v', 'w', 'x', 'y', 'z']

/-- Emit `n` geohash characters. -/
def ghChars (lat lon : ℚ) : Nat → Bool → GHRange → List Char
  | 0, _, _ => []
  | n + 1, even, r =>
    let s := ghCharStep lat lon even r
    base32chars.getD s.1 '?' :: ghChars lat lon n s.2.1 s.2.2

/-- `pygeohash.encode(latitude, longitude, precision)`. -/
def pgh_encode (lat lon : ℚ) (precision : Nat) : List Char :=
  ghChars lat lon precision true ⟨-90, 90, -180, 180⟩

/-- Lines 219-220 of `ingest_service.py`:
`geohash = pgh.encode(latitude, longitude, precision=7)` and
`geohash_5 = geohash[:5]`. -/
def spatialKeys (lat lon : ℚ) : List Char × List Char :=
  let geohash := pgh_encode lat lon 7
  (geohash, geohash.take 5)

/-! ## Record decoder / validator (`extract_vessel_data`) -/

/-- `extract_vessel_data` (`ingest_service.py:188-249`).  Returns `none`
exactly where the Python returns `None`.  The Python guard
`not mmsi or mmsi <= 0` is `mmsi is None or mmsi == 0 or mmsi <= 0`,
i.e. `none` or `≤ 0`.  Timestamp parsing (`dateutil`): a parsable
`time_utc` gives the parsed instant, a missing or unparsable one falls
back to the current wall clock (`datetime.utcnow()`), passed as `now`. -/
def extract_vessel_data (now : ℚ) (msg : ParsedMsg) : Option VesselRecord :=
  match msg.mmsi with
  | none => none
  | some mmsi =>
    if mmsi ≤ 0 then none
    else
      match msg.latitude with
      | none => none
      | some latitude =>
        if ¬(-90 ≤ latitude ∧ latitude ≤ 90) then none
        else
          match msg.longitude with
          | none => none
          | some longitude =>
            if ¬(-180 ≤ longitude ∧ longitude ≤ 180) then none
            else
              let course : Option ℚ :=
                match msg.cog with
                | some c => if ¬(0 ≤ c ∧ c < 360) then none else some c
                | none => none
              let speed : Option ℚ :=
                match msg.sog with
                | some sp => if sp < 0 then none else some sp
                | none => none
              let keys := spatialKeys latitude longitude
              let last_updated : ℚ :=
                match msg.time_utc with
                | some (some t) => t
                | some none => now
                | none => now
              some
                { mmsi := mmsi
                  latitude := latitude
                  longitude := longitude
                  course := course
                  speed := speed
                  ship_type := msg.shipType
                  geohash := keys.1
                  geohash_5 := keys.2
                  last_updated := last_updated }

/-! ## Association lists modelling Python dicts / DB tables keyed by MMSI -/

/-- `k in d` / `d[k]` lookup. -/
def lookupB {α : Type} (k : Int) : List (Int × α) → Option α
  | [] => none
  | (k', v) :: rest => if k' = k then some v else lookupB k rest

/-- `d[k] = v`: replace in place if the key is present (Python dicts keep the
original insertion position), append otherwise. -/
def setB {α : Type} (k : Int) (v : α) : List (Int × α) → List (Int × α)
  | [] => [(k, v)]
  | (k', v') :: rest => if k' = k then (k, v) :: rest else (k', v') :: setB k v rest

/-! ## Batch accumulator (`process_message_queue`, `ingest_service.py:126-186`) -/

/-- Lines 163-169: insert the validated record into the in-memory batch iff
its MMSI is new to the batch or its `last_updated` is strictly greater than
the existing entry's. -/
def batchInsertRecord (batch : List (Int × VesselRecord)) (v : VesselRecord) :
    List (Int × VesselRecord) :=
  match lookupB v.mmsi batch with
  | none => setB v.mmsi v batch
  | some cur => if cur.last_updated < v.last_updated then setB v.mmsi v batch else batch

/-- One dequeue attempt from the ingress queue: `queue.Empty` after the 100ms
timeout, or a raw message. -/
inductive QueueEvent
  | timeout
  | msg (r : RawMsg)
deriving DecidableEq

/-- The accumulator-loop state: the dedup batch (`batch` dict, in insertion
order), `last_batch_time`, the `errors` stat counter, and — standing in for
the calls `self.batch_upsert(list(batch.values()))` — the list of batches
handed to the sink writer, most recent first. -/
structure AccState where
  batch : List (Int × VesselRecord)
  lastBatchTime : ℚ
  errors : Nat
  flushed : List (List VesselRecord)
deriving DecidableEq

/-- Hand the batch's values to the sink writer, clear the batch, reset
`last_batch_time` (lines 145-147 and 174-176). -/
def flushBatch (now : ℚ) (s : AccState) : AccState :=
  { s with
    batch := []
    lastBatchTime := now
    flushed := s.batch.map (fun p => p.2) :: s.flushed }

/-- Lines 159-169: on a JSON-parsed message, run the decoder and the batch
upsert only when `MessageType == "PositionReport"`. -/
def processPositionReport (now : ℚ) (m : ParsedMsg) (s : AccState) : AccState :=
  if m.messageType = some "PositionReport" then
    match extract_vessel_data now m with
    | some v => { s with batch := batchInsertRecord s.batch v }
    | none => s
  else s

/-- Lines 171-176: flush when the batch size reached `batch_size`, or the
batch is non-empty and `batch_interval` has elapsed since the last flush. -/
def flushCheck (bs : Nat) (interval now : ℚ) (s : AccState) : AccState :=
  if bs ≤ s.batch.length ∨ (s.batch ≠ [] ∧ interval ≤ now - s.lastBatchTime) then
    flushBatch now s
  else s

/-- One iteration of the `process_message_queue` loop body (lines 137-180),
given the current wall clock `now` (the iteration's `time.time()` reads) and
the dequeue outcome:
- `timeout` (`queue.Empty`): only the time-based flush check runs (144-148);
- a malformed payload: the error counter is incremented and the iteration
  `continue`s, skipping the flush check (150-156);
- a parsed message: decode/validate/insert, then the full flush check. -/
def accStep (bs : Nat) (interval now : ℚ) (e : QueueEvent) (s : AccState) : AccState :=
  match e with
  | .timeout =>
    if s.batch ≠ [] ∧ interval ≤ now - s.lastBatchTime then flushBatch now s else s
  | .msg .malformed => { s with errors := s.errors + 1 }
  | .msg (.parsed m) => flushCheck bs interval now (processPositionReport now m s)

/-! ## Sink writer (`batch_upsert`, `ingest_service.py:251-320`) -/

/-- A row of the `vessels` table: the columns named in the INSERT plus
`received_at`.  `location` is the `POINT(lon lat)` geography derived from
the coordinates. -/
structure StoredVessel where
  mmsi : Int
  latitude : ℚ
  longitude : ℚ
  location : ℚ × ℚ
  course : Option ℚ
  speed : Option ℚ
  ship_type : Option Int
  geohash : List Char
  geohash_5 : List Char
  last_updated : ℚ
  received_at : ℚ
deriving DecidableEq

/-- Modelled from the spec: the `vessels` table DDL is not under `src/`
(only the INSERT in `batch_upsert` is), so the `received_at` value taken by
a freshly inserted row — a column default, since the INSERT's column list
omits `received_at` — is modelled from spec §3/§6: "`received_at`:
timestamp set by the Sink Writer at persistence time", i.e. `NOW()`. -/
def insertedRow (now : ℚ) (v : VesselRecord) : StoredVessel :=
  { mmsi := v.mmsi
    latitude := v.latitude
    longitude := v.longitude
    location := (v.longitude, v.latitude)
    course := v.course
    speed := v.speed
    ship_type := v.ship_type
    geohash := v.geohash
    geohash_5 := v.geohash_5
    last_updated := v.last_updated
    received_at := now }

/-- The `ON CONFLICT (mmsi) DO UPDATE` clause: overwrite every column from
the excluded row and set `received_at = NOW()` (lines 288-299). -/
def updatedRow (now : ℚ) (v : VesselRecord) : StoredVessel :=
  { mmsi := v.mmsi
    latitude := v.latitude
    longitude := v.longitude
    location := (v.longitude, v.latitude)
    course := v.course
    speed := v.speed
    ship_type := v.ship_type
    geohash := v.geohash
    geohash_5 := v.geohash_5
    last_updated := v.last_updated
    received_at := now }

/-- One row of the multi-row `INSERT ... ON CONFLICT (mmsi) DO UPDATE`:
insert when the key is absent, overwrite when present. -/
def upsertRow (now : ℚ) (store : List (Int × StoredVessel)) (v : VesselRecord) :
    List (Int × StoredVessel) :=
  match lookupB v.mmsi store with
  | none => setB v.mmsi (insertedRow now v) store
  | some _ => setB v.mmsi (updatedRow now v) store

/-- The whole multi-row statement applied to the table. -/
def applyBatch (now : ℚ) (store : List (Int × StoredVessel)) (batch : List VesselRecord) :
    List (Int × StoredVessel) :=
  batch.foldl (upsertRow now) store

/-- The sink writer's stat counters. -/
structure SinkStats where
  errors : Nat
  vessels_upserted : Nat
  batches_processed : Nat
deriving DecidableEq

/-- `batch_upsert` (lines 251-320).  `fails` models whether the transaction
raises; on failure the `except` branch rolls the transaction back — the
store is unchanged — increments `errors`, and returns (the batch is not
retried).  On success the statement is applied and committed and the
success counters advance.  An empty batch returns immediately. -/
def batch_upsert (fails : Bool) (now : ℚ) (store : List (Int × StoredVessel))
    (st : SinkStats) (batch : List VesselRecord) :
    List (Int × StoredVessel) × SinkStats :=
  if batch = [] then (store, st)
  else if fails then (store, { st with errors := st.errors + 1 })
  else
    (applyBatch now store batch,
     { st with
       vessels_upserted := st.vessels_upserted + batch.length
       batches_processed := st.batches_processed + 1 })

/-! ## Stream client reconnect backoff (`connect_websocket`,
`ingest_service.py:81-124`) -/

/-- Connection lifecycle events seen by the backoff logic: a successful
subscription (line 99-102) or a connection failure (lines 117-124). -/
inductive ConnEvent
  | success
  | failure
deriving DecidableEq

/-- One event's effect on `retry_delay`: a successful subscription resets it
to 5 (line 102); a failure sleeps the current delay and then doubles it,
capped at 60 (lines 123-124).  Returns the new delay and the wait performed,
if any. -/
def backoffStep (d : Nat) : ConnEvent → Nat × Option Nat
  | .success => (5, none)
  | .failure => (min (d * 2) 60, some d)

/-- Run the backoff state machine from delay `d` over a sequence of events;
returns the final delay and the sequence of waits performed, in order.
The initial delay of the loop is 5 (line 86). -/
def runBackoff (d : Nat) : List ConnEvent → Nat × List Nat
  | [] => (d, [])
  | e :: es =>
    let s := backoffStep d e
    let rest := runBackoff s.1 es
    (rest.1, (match s.2 with | some w => [w] | none => []) ++ rest.2)

/-! ## Query service (`get_vessels`, `api_service.py:123-246`) -/

/-- The WHERE clause of the viewport query (lines 186-198): latitude and
longitude BETWEEN the bbox bounds, `last_updated > NOW() - INTERVAL
'2 minutes'` (120 s), and, when a delta timestamp was parsed,
`last_updated > %s`. -/
def vesselMatches (minLat maxLat minLon maxLon now : ℚ) (delta : Option ℚ)
    (r : StoredVessel) : Bool :=
  decide (minLat ≤ r.latitude) && decide (r.latitude ≤ maxLat) &&
  decide (minLon ≤ r.longitude) && decide (r.longitude ≤ maxLon) &&
  decide (now - 120 < r.last_updated) &&
  (match delta with
   | none => true
   | some t => decide (t < r.last_updated))

/-- `ORDER BY last_updated DESC`. -/
def vesselDesc (a b : StoredVessel) : Prop := b.last_updated ≤ a.last_updated

instance : DecidableRel vesselDesc :=
  fun a b => inferInstanceAs (Decidable (b.last_updated ≤ a.last_updated))

instance : IsTotal StoredVessel vesselDesc :=
  ⟨fun a b => le_total b.last_updated a.last_updated⟩

instance : IsTrans StoredVessel vesselDesc :=
  ⟨fun _ _ _ h1 h2 => le_trans h2 h1⟩

/-- The SELECT of lines 177-204 over the table contents `rows`: filter by
the WHERE clause, order by `last_updated` descending (the SQL engine's sort
is modelled by insertion sort, a correct stable sort). -/
def get_vessels_query (rows : List StoredVessel) (minLat maxLat minLon maxLon now : ℚ)
    (delta : Option ℚ) : List StoredVessel :=
  List.insertionSort vesselDesc
    (rows.filter (vesselMatches minLat maxLat minLon maxLon now delta))

/-- Lines 162-170: parse the optional `lastUpdateTime` query parameter.
`parseIso` stands for `datetime.fromisoformat` after the `Z` substitution;
an absent parameter or a parse failure leaves `delta_time = None` and
`is_delta = False`; a successful parse sets both. -/
def parse_last_update_time (parseIso : String → Option ℚ)
    (lastUpdateTime : Option String) : Option ℚ × Bool :=
  match lastUpdateTime with
  | none => (none, false)
  | some s =>
    match parseIso s with
    | some t => (some t, true)
    | none => (none, false)

/-- The data portion of the `get_vessels` handler after bbox validation:
the returned vessel list and the response's `is_delta` flag. -/
def get_vessels (parseIso : String → Option ℚ) (rows : List StoredVessel)
    (minLat maxLat minLon maxLon now : ℚ) (lastUpdateTime : Option String) :
    List StoredVessel × Bool :=
  let d := parse_last_update_time parseIso lastUpdateTime
  (get_vessels_query rows minLat maxLat minLon maxLon now d.1, d.2)

/-! ## Helper lemmas for the batch association list -/

theorem lookupB_setB_self {α : Type} (k : Int) (v : α) :
    ∀ b : List (Int × α), lookupB k (setB k v b) = some v := by
  intro b
  induction b with
  | nil => simp [setB, lookupB]
  | cons p rest ih =>
    obtain ⟨k', v'⟩ := p
    by_cases h : k' = k
    · simp [setB, lookupB, h]
    · simp [setB, lookupB, h, ih]

/-- The tournament step the batch upsert performs on the entry of a single
vessel: keep the newcomer only when strictly fresher. -/
def keepLatest (cur r : VesselRecord) : VesselRecord :=
  if cur.last_updated < r.last_updated then r else cur

theorem lookupB_foldl_batchInsertRecord (v : Int) :
    ∀ (rs : List VesselRecord) (b : List (Int × VesselRecord)) (cur : VesselRecord),
      lookupB v b = some cur → (∀ r ∈ rs, r.mmsi = v) →
      lookupB v (rs.foldl batchInsertRecord b) = some (rs.foldl keepLatest cur) := by
  intro rs
  induction rs with
  | nil => intro b cur hcur _; simpa using hcur
  | cons r rs ih =>
    intro b cur hcur hall
    have hr : r.mmsi = v := hall r (by simp)
    have hall' : ∀ x ∈ rs, x.mmsi = v := fun x hx => hall x (by simp [hx])
    simp only [List.foldl_cons]
    by_cases hlt : cur.last_updated < r.last_updated
    · have hb : batchInsertRecord b r = setB v r b := by
        simp [batchInsertRecord, hr, hcur, hlt]
      have hk : keepLatest cur r = r := by simp [keepLatest, hlt]
      rw [hb, hk]
      exact ih (setB v r b) r (lookupB_setB_self v r b) hall'
    · have hb : batchInsertRecord b r = b := by
        simp [batchInsertRecord, hr, hcur, hlt]
      have hk : keepLatest cur r = cur := by simp [keepLatest, hlt]
      rw [hb, hk]
      exact ih b cur hcur hall'

theorem foldl_keepLatest_firstMax :
    ∀ (rs : List VesselRecord) (a : VesselRecord),
      ∃ l₁ l₂, a :: rs = l₁ ++ (rs.foldl keepLatest a) :: l₂ ∧
        (∀ x ∈ l₁, x.last_updated < (rs.foldl keepLatest a).last_updated) ∧
        (∀ x ∈ l₂, x.last_updated ≤ (rs.foldl keepLatest a).last_updated) := by
  intro rs
  induction rs with
  | nil => intro a; exact ⟨[], [], rfl, by simp, by simp⟩
  | cons b rs ih =>
    intro a
    simp only [List.foldl_cons]
    by_cases h : a.last_updated < b.last_updated
    · have hk : keepLatest a b = b := by simp [keepLatest, h]
      rw [hk]
      obtain ⟨l₁, l₂, hsplit, hlt, hle⟩ := ih b
      set m := rs.foldl keepLatest b with hm
      have hbm : b.last_updated ≤ m.last_updated := by
        cases l₁ with
        | nil =>
          simp only [List.nil_append, List.cons.injEq] at hsplit
          rw [hsplit.1]
        | cons c l₁' =>
          simp only [List.cons_append, List.cons.injEq] at hsplit
          have hc : c = b := hsplit.1.symm
          exact le_of_lt (hc ▸ hlt c (by simp))
      refine ⟨a :: l₁, l₂, ?_, ?_, hle⟩
      · simpa using congrArg (a :: ·) hsplit
      · intro x hx
        rcases List.mem_cons.mp hx with hxa | hx1
        · subst hxa; exact lt_of_lt_of_le h hbm
        · exact hlt x hx1
    · have hk : keepLatest a b = a := by simp [keepLatest, h]
      rw [hk]
      obtain ⟨l₁, l₂, hsplit, hlt, hle⟩ := ih a
      set m := rs.foldl keepLatest a with hm
      cases l₁ with
      | nil =>
        simp only [List.nil_append, List.cons.injEq] at hsplit
        have hma : m = a := hsplit.1.symm
        have hl₂ : l₂ = rs := hsplit.2.symm
        refine ⟨[], b :: rs, by simp [hma], by simp, ?_⟩
        intro x hx
        rcases List.mem_cons.mp hx with hxb | hxr
        · subst hxb; rw [hma]; exact le_of_not_lt h
        · exact hle x (by rw [hl₂]; exact hxr)
      | cons c l₁' =>
        have hsplit' := hsplit
        simp only [List.cons_append, List.cons.injEq] at hsplit'
        have hc : c = a := hsplit'.1.symm
        have hrs : rs = l₁' ++ m :: l₂ := hsplit'.2
        have ham : a.last_updated < m.last_updated := hc ▸ hlt c (by simp)
        refine ⟨a :: b :: l₁', l₂, ?_, ?_, hle⟩
        · simp [hrs]
        · intro x hx
          rcases List.mem_cons.mp hx with hxa | hx'
          · subst hxa; exact ham
          rcases List.mem_cons.mp hx' with hxb | hx''
          · subst hxb; exact lt_of_le_of_lt (le_of_not_lt h) ham
          · exact hlt x (by simp [hx''])

/-- C1: for every sequence of validated records sharing a `vessel_id`
processed by the batch accumulator within one batch window (no intervening
flush, so the upserts of lines 163-169 compose), the record retained in the
batch is exactly the one with maximum `observed_at` (`last_updated`), and
among equals the first seen: everything before it in the sequence is
strictly older, everything after it is no newer. -/
theorem C1_batch_keeps_first_max_observed
    (b : List (Int × VesselRecord)) (v : Int) (r0 : VesselRecord)
    (rs : List VesselRecord)
    (hnew : lookupB v b = none) (h0 : r0.mmsi = v) (hall : ∀ r ∈ rs, r.mmsi = v) :
    ∃ l₁ l₂ m, lookupB v ((r0 :: rs).foldl batchInsertRecord b) = some m ∧
      r0 :: rs = l₁ ++ m :: l₂ ∧
      (∀ x ∈ l₁, x.last_updated < m.last_updated) ∧
      (∀ x ∈ l₂, x.last_updated ≤ m.last_updated) := by
  have hstep : batchInsertRecord b r0 = setB v r0 b := by
    simp [batchInsertRecord, h0, hnew]
  obtain ⟨l₁, l₂, hsplit, hlt, hle⟩ := foldl_keepLatest_firstMax rs r0
  refine ⟨l₁, l₂, rs.foldl keepLatest r0, ?_, hsplit, hlt, hle⟩
  simp only [List.foldl_cons, hstep]
  exact lookupB_foldl_batchInsertRecord v rs (setB v r0 b) r0
    (lookupB_setB_self v r0 b) hall

/-- Witness for C1 on a concrete run: vessel 7 reports observed at t=3,
then t=3 again (tie: first seen kept), then t=1 (older: ignored). -/
theorem C1_batch_keeps_first_max_observed_witness :
    ∃ l₁ l₂ m,
      lookupB 7 (List.foldl batchInsertRecord []
          [⟨7, 0, 0, none, none, none, [], [], 3⟩,
           ⟨7, 1, 1, none, none, none, [], [], 3⟩,
           ⟨7, 2, 2, none, none, none, [], [], 1⟩]) = some m ∧
      ([⟨7, 0, 0, none, none, none, [], [], 3⟩,
        ⟨7, 1, 1, none, none, none, [], [], 3⟩,
        ⟨7, 2, 2, none, none, none, [], [], 1⟩] : List VesselRecord)
        = l₁ ++ m :: l₂ ∧
      (∀ x ∈ l₁, x.last_updated < m.last_updated) ∧
      (∀ x ∈ l₂, x.last_updated ≤ m.last_updated) :=
  C1_batch_keeps_first_max_observed [] 7
    ⟨7, 0, 0, none, none, none, [], [], 3⟩
    [⟨7, 1, 1, none, none, none, [], [], 3⟩,
     ⟨7, 2, 2, none, none, none, [], [], 1⟩]
    rfl rfl (by decide)

/-! ## C9: spatial key derivation -/

theorem ghChars_length (lat lon : ℚ) :
    ∀ (n : Nat) (even : Bool) (r : GHRange), (ghChars lat lon n even r).length = n := by
  intro n
  induction n with
  | zero => intro even r; rfl
  | succ n ih => intro even r; simp [ghChars, ih]

/-- C9: spatial key derivation is deterministic and structurally consistent:
for every coordinate pair the derivation yields a `spatial_key` of exactly 7
characters, a `spatial_key_coarse` that is its first 5 characters (hence 5
characters long and a prefix of the fine key), and repeated derivations on
equal inputs agree. -/
theorem C9_spatial_keys_consistent (lat lon : ℚ) :
    (spatialKeys lat lon).1.length = 7 ∧
    (spatialKeys lat lon).2 = (spatialKeys lat lon).1.take 5 ∧
    (spatialKeys lat lon).2.length = 5 ∧
    (∃ t, (spatialKeys lat lon).1 = (spatialKeys lat lon).2 ++ t) ∧
    (∀ lat' lon', lat' = lat → lon' = lon → spatialKeys lat' lon' = spatialKeys lat lon) := by
  have hlen : (spatialKeys lat lon).1.length = 7 := ghChars_length lat lon 7 true _
  refine ⟨hlen, rfl, ?_, ⟨(spatialKeys lat lon).1.drop 5, ?_⟩, ?_⟩
  · show ((spatialKeys lat lon).1.take 5).length = 5
    rw [List.length_take, hlen]
    decide
  · exact (List.take_append_drop 5 (spatialKeys lat lon).1).symm
  · intro lat' lon' h1 h2; rw [h1, h2]

/-! ## C2: rejection accounting -/

/-- Counterexample to C2 as stated: a position report whose `MMSI` is
missing is rejected by the decoder/validator, yet processing it leaves the
error counter untouched (lines 163-169 have no `else` branch incrementing
`errors`), contradicting "every rejection, of every kind, increments the
error counter". -/
theorem C2_counterexample_rejection_not_counted :
    extract_vessel_data 0 ⟨some "PositionReport", none, none, none, some 10, some 20, none, none⟩
      = none ∧
    (accStep 1000 3 0
        (QueueEvent.msg (RawMsg.parsed
          ⟨some "PositionReport", none, none, none, some 10, some 20, none, none⟩))
        ⟨[], 0, 0, []⟩).errors = 0 := by
  exact ⟨rfl, rfl⟩

theorem flushCheck_errors (bs : Nat) (interval now : ℚ) (s : AccState) :
    (flushCheck bs interval now s).errors = s.errors := by
  unfold flushCheck flushBatch
  split <;> rfl

/-- C2 amended: a malformed payload (JSON decode failure) increments the
error counter and is dropped without retry, the rest of the state untouched;
a decode/validation rejection (missing or non-positive `vessel_id`,
out-of-domain latitude or longitude) is dropped without retry but does NOT
increment the error counter — the iteration proceeds to the ordinary flush
check with the state otherwise unchanged. -/
theorem C2_rejection_accounting (bs : Nat) (interval now : ℚ) (s : AccState)
    (m : ParsedMsg) (hrej : extract_vessel_data now m = none) :
    accStep bs interval now (QueueEvent.msg RawMsg.malformed) s
      = { s with errors := s.errors + 1 } ∧
    accStep bs interval now (QueueEvent.msg (RawMsg.parsed m)) s
      = flushCheck bs interval now s ∧
    (accStep bs interval now (QueueEvent.msg (RawMsg.parsed m)) s).errors = s.errors := by
  have hproc : processPositionReport now m s = s := by
    unfold processPositionReport
    split
    · rw [hrej]
    · rfl
  refine ⟨rfl, ?_, ?_⟩
  · show flushCheck bs interval now (processPositionReport now m s) = flushCheck bs interval now s
    rw [hproc]
  · show (flushCheck bs interval now (processPositionReport now m s)).errors = s.errors
    rw [hproc, flushCheck_errors]

/-- Witness for C2's amended theorem at a concrete rejected message
(latitude 91 is outside [-90, 90]). -/
theorem C2_rejection_accounting_witness :
    accStep 1000 3 0 (QueueEvent.msg RawMsg.malformed) ⟨[], 0, 5, []⟩
      = { batch := [], lastBatchTime := 0, errors := 6, flushed := [] } ∧
    accStep 1000 3 0
        (QueueEvent.msg (RawMsg.parsed
          ⟨some "PositionReport", some 123, none, none, some 91, some 20, none, none⟩))
        ⟨[], 0, 5, []⟩
      = flushCheck 1000 3 0 ⟨[], 0, 5, []⟩ ∧
    (accStep 1000 3 0
        (QueueEvent.msg (RawMsg.parsed
          ⟨some "PositionReport", some 123, none, none, some 91, some 20, none, none⟩))
        ⟨[], 0, 5, []⟩).errors = 5 :=
  C2_rejection_accounting 1000 3 0 ⟨[], 0, 5, []⟩
    ⟨some "PositionReport", some 123, none, none, some 91, some 20, none, none⟩
    (by decide)

/-! ## C3: flush triggers -/

/-- Counterexample to C3 as stated: in an iteration that dequeues a
malformed payload, the `continue` on the JSON decode failure (line 156)
skips the flush check entirely, so no flush occurs even though the batch is
non-empty and the interval has long elapsed. -/
theorem C3_counterexample_malformed_skips_flush :
    (accStep 1000 3 100 (QueueEvent.msg RawMsg.malformed)
        ⟨[(1, ⟨1, 0, 0, none, none, none, [], [], 0⟩)], 0, 0, []⟩).flushed = [] ∧
    (accStep 1000 3 100 (QueueEvent.msg RawMsg.malformed)
        ⟨[(1, ⟨1, 0, 0, none, none, none, [], [], 0⟩)], 0, 0, []⟩).batch
      = [(1, ⟨1, 0, 0, none, none, none, [], [], 0⟩)] ∧
    ([(1, (⟨1, 0, 0, none, none, none, [], [], 0⟩ : VesselRecord))] ≠ []) ∧
    ((3 : ℚ) ≤ 100 - 0) := by
  refine ⟨rfl, rfl, by simp, by norm_num⟩

/-- C3 amended: in every iteration whose dequeued input is not a malformed
payload (the malformed case `continue`s past the flush check), a flush is
triggered exactly when the batch — after the iteration's decode/upsert, for
a message iteration — has reached `batch_size`, or is non-empty with at
least `batch_interval` elapsed since `last_batch_time`; on flush the batch's
values go to the sink writer, the batch is cleared and `last_batch_time` is
reset to now.  The hypothesis `s.batch.length < bs` is the loop invariant
(re-established by the conclusion): the size trigger fires as soon as the
size is reached, so the accumulator never enters an iteration at or above
the threshold. -/
theorem C3_flush_trigger_iff (bs : Nat) (interval now : ℚ) (e : QueueEvent) (s : AccState)
    (hbs : 0 < bs) (hinv : s.batch.length < bs)
    (hm : e ≠ QueueEvent.msg RawMsg.malformed) :
    (accStep bs interval now e s =
      (let s1 := match e with
        | QueueEvent.msg (RawMsg.parsed m) => processPositionReport now m s
        | _ => s
      if bs ≤ s1.batch.length ∨ (s1.batch ≠ [] ∧ interval ≤ now - s1.lastBatchTime) then
        { s1 with
          batch := []
          lastBatchTime := now
          flushed := s1.batch.map (fun p => p.2) :: s1.flushed }
      else s1)) ∧
    (accStep bs interval now e s).batch.length < bs := by
  match e with
  | QueueEvent.timeout =>
    have hnle : ¬ bs ≤ s.batch.length := Nat.not_le.mpr hinv
    constructor
    · show (if s.batch ≠ [] ∧ interval ≤ now - s.lastBatchTime then flushBatch now s else s)
        = _
      simp only [hnle, false_or]
      rfl
    · show (if s.batch ≠ [] ∧ interval ≤ now - s.lastBatchTime then flushBatch now s else s).batch.length < bs
      split
      · simpa [flushBatch] using hbs
      · exact hinv
  | QueueEvent.msg RawMsg.malformed => exact absurd rfl hm
  | QueueEvent.msg (RawMsg.parsed m) =>
    constructor
    · rfl
    · show (flushCheck bs interval now (processPositionReport now m s)).batch.length < bs
      unfold flushCheck
      split
      · simpa [flushBatch] using hbs
      · next hcond =>
        rcases Nat.lt_or_ge (processPositionReport now m s).batch.length bs with hlt | hge
        · exact hlt
        · exact absurd (Or.inl hge) hcond

/-- Witness for C3's amended theorem: a queue-timeout iteration with a
non-empty one-record batch, threshold 2, interval 3 s, 100 s elapsed —
the time trigger fires and the batch is flushed. -/
theorem C3_flush_trigger_iff_witness :
    (accStep 2 3 100 QueueEvent.timeout
        ⟨[(1, ⟨1, 0, 0, none, none, none, [], [], 0⟩)], 0, 0, []⟩ =
      (let s1 := match QueueEvent.timeout with
        | QueueEvent.msg (RawMsg.parsed m) =>
          processPositionReport 100 m ⟨[(1, ⟨1, 0, 0, none, none, none, [], [], 0⟩)], 0, 0, []⟩
        | _ => (⟨[(1, ⟨1, 0, 0, none, none, none, [], [], 0⟩)], 0, 0, []⟩ : AccState)
      if 2 ≤ s1.batch.length ∨ (s1.batch ≠ [] ∧ (3 : ℚ) ≤ 100 - s1.lastBatchTime) then
        { s1 with
          batch := []
          lastBatchTime := 100
          flushed := s1.batch.map (fun p => p.2) :: s1.flushed }
      else s1)) ∧
    (accStep 2 3 100 QueueEvent.timeout
        ⟨[(1, ⟨1, 0, 0, none, none, none, [], [], 0⟩)], 0, 0, []⟩).batch.length < 2 :=
  C3_flush_trigger_iff 2 3 100 QueueEvent.timeout
    ⟨[(1, ⟨1, 0, 0, none, none, none, [], [], 0⟩)], 0, 0, []⟩
    (by decide) (by decide) (by decide)

/-! ## C6: decoder rejection vs. sanitization -/

/-- The claim's rejection condition, written from the spec's words:
`vessel_id` missing or ≤ 0, latitude missing or outside [-90, 90],
longitude missing or outside [-180, 180]. -/
def mandatoryReject (m : ParsedMsg) : Bool :=
  (match m.mmsi with
   | none => true
   | some v => decide (v ≤ 0)) ||
  (match m.latitude with
   | none => true
   | some la => decide (la < -90) || decide (90 < la)) ||
  (match m.longitude with
   | none => true
   | some lo => decide (lo < -180) || decide (180 < lo))

/-- The claim's course sanitization: a missing course, or one outside
[0, 360), becomes absent. -/
def sanitizedCourse (m : ParsedMsg) : Option ℚ :=
  match m.cog with
  | none => none
  | some c => if c < 0 ∨ 360 ≤ c then none else some c

/-- The claim's speed sanitization: a missing or negative speed becomes
absent. -/
def sanitizedSpeed (m : ParsedMsg) : Option ℚ :=
  match m.sog with
  | none => none
  | some sp => if sp < 0 then none else some sp

/-- C6: the decoder rejects a position-report message exactly when a
mandatory field is missing or out of domain (`vessel_id` missing or ≤ 0,
latitude outside [-90, 90], longitude outside [-180, 180]); an out-of-range
course or a negative speed never causes rejection — on every accepted
record the course and speed fields are exactly the sanitized values, with
the offending field set to absent. -/
theorem C6_decoder_reject_iff (now : ℚ) (m : ParsedMsg) :
    (extract_vessel_data now m = none ↔ mandatoryReject m = true) ∧
    (extract_vessel_data now m).map (fun r => r.course)
      = (if mandatoryReject m then none else some (sanitizedCourse m)) ∧
    (extract_vessel_data now m).map (fun r => r.speed)
      = (if mandatoryReject m then none else some (sanitizedSpeed m)) := by
  rcases hm : m.mmsi with _ | v
  · simp [extract_vessel_data, mandatoryReject, hm]
  rcases hla : m.latitude with _ | la
  · simp [extract_vessel_data, mandatoryReject, hm, hla, ite_self]
  rcases hlo : m.longitude with _ | lo
  · simp [extract_vessel_data, mandatoryReject, hm, hla, hlo, ite_self]
  by_cases hv : v ≤ 0
  · simp [extract_vessel_data, mandatoryReject, hm, hla, hlo, hv]
  by_cases h1 : -90 ≤ la ∧ la ≤ 90
  · by_cases h2 : -180 ≤ lo ∧ lo ≤ 180
    · have hb : mandatoryReject m = false := by
        simp only [mandatoryReject, hm, hla, hlo, Bool.or_eq_false_iff,
          decide_eq_false_iff_not]
        exact ⟨⟨hv, not_lt.mpr h1.1, not_lt.mpr h1.2⟩,
          not_lt.mpr h2.1, not_lt.mpr h2.2⟩
      simp only [extract_vessel_data, sanitizedCourse, sanitizedSpeed, hm, hla, hlo,
        hb, if_neg hv, if_neg (not_not_intro h1), if_neg (not_not_intro h2),
        Bool.false_eq_true, if_false, Option.map_some]
      refine ⟨by simp, ?_, ?_⟩
      · rcases m.cog with _ | c
        · simp
        · by_cases hcr : 0 ≤ c ∧ c < 360
          · have h' : ¬(c < 0 ∨ 360 ≤ c) := by
              push_neg
              exact hcr
            simp [hcr, h']
          · have h' : c < 0 ∨ 360 ≤ c := by
              rcases not_and_or.mp hcr with h | h
              · exact Or.inl (not_le.mp h)
              · exact Or.inr (not_lt.mp h)
            simp [hcr, h']
      · rcases m.sog with _ | sp
        · simp
        · by_cases hsr : sp < 0 <;> simp [hsr]
    · have hout : lo < -180 ∨ 180 < lo := by
        rcases not_and_or.mp h2 with h | h
        · exact Or.inl (not_le.mp h)
        · exact Or.inr (not_le.mp h)
      have hb : mandatoryReject m = true := by
        rcases hout with h | h <;> simp [mandatoryReject, hm, hla, hlo, h]
      simp [extract_vessel_data, hm, hla, hlo, hv, h1, h2, hb]
  · have hout : la < -90 ∨ 90 < la := by
      rcases not_and_or.mp h1 with h | h
      · exact Or.inl (not_le.mp h)
      · exact Or.inr (not_le.mp h)
    have hb : mandatoryReject m = true := by
      rcases hout with h | h <;> simp [mandatoryReject, hm, hla, hlo, h]
    simp [extract_vessel_data, hm, hla, hlo, hv, h1, hb]

/-! ## C4: `received_at` is set on every write -/

theorem lookupB_setB_ne {α : Type} (k k' : Int) (v : α) (hne : k' ≠ k) :
    ∀ b : List (Int × α), lookupB k (setB k' v b) = lookupB k b := by
  intro b
  induction b with
  | nil => simp [setB, lookupB, hne]
  | cons p rest ih =>
    obtain ⟨k'', v''⟩ := p
    by_cases h : k'' = k'
    · simp [setB, lookupB, h, hne, Ne.symm hne]
    · simp [setB, lookupB, h, ih]

theorem applyBatch_preserves_received_now (now : ℚ) :
    ∀ (batch : List VesselRecord) (store : List (Int × StoredVessel)) (k : Int)
      (row : StoredVessel),
      lookupB k store = some row → row.received_at = now →
      ∃ row', lookupB k (applyBatch now store batch) = some row' ∧ row'.received_at = now := by
  intro batch
  induction batch with
  | nil => intro store k row hrow hnow; exact ⟨row, hrow, hnow⟩
  | cons r rest ih =>
    intro store k row hrow hnow
    show ∃ row', lookupB k (applyBatch now (upsertRow now store r) rest) = some row' ∧
      row'.received_at = now
    by_cases hk : r.mmsi = k
    · have hlk : lookupB k (upsertRow now store r) = some (updatedRow now r) ∨
          lookupB k (upsertRow now store r) = some (insertedRow now r) := by
        unfold upsertRow
        rcases lookupB r.mmsi store with _ | cur
        · exact Or.inr (hk ▸ lookupB_setB_self r.mmsi (insertedRow now r) store)
        · exact Or.inl (hk ▸ lookupB_setB_self r.mmsi (updatedRow now r) store)
      rcases hlk with h | h
      · exact ih (upsertRow now store r) k (updatedRow now r) h rfl
      · exact ih (upsertRow now store r) k (insertedRow now r) h rfl
    · have hlk : lookupB k (upsertRow now store r) = some row := by
        unfold upsertRow
        rcases lookupB r.mmsi store with _ | cur
        · rw [lookupB_setB_ne k r.mmsi _ hk store]; exact hrow
        · rw [lookupB_setB_ne k r.mmsi _ hk store]; exact hrow
      exact ih (upsertRow now store r) k row hlk hnow

theorem applyBatch_received_now (now : ℚ) :
    ∀ (batch : List VesselRecord) (store : List (Int × StoredVessel)) (v : VesselRecord),
      v ∈ batch →
      ∃ row, lookupB v.mmsi (applyBatch now store batch) = some row ∧
        row.received_at = now := by
  intro batch
  induction batch with
  | nil => intro store v hv; exact absurd hv (List.not_mem_nil v)
  | cons r rest ih =>
    intro store v hv
    rcases List.mem_cons.mp hv with hv | hv
    · subst hv
      show ∃ row, lookupB v.mmsi (applyBatch now (upsertRow now store v) rest) = some row ∧
        row.received_at = now
      have hlk : lookupB v.mmsi (upsertRow now store v) = some (updatedRow now v) ∨
          lookupB v.mmsi (upsertRow now store v) = some (insertedRow now v) := by
        unfold upsertRow
        rcases lookupB v.mmsi store with _ | cur
        · exact Or.inr (lookupB_setB_self v.mmsi (insertedRow now v) store)
        · exact Or.inl (lookupB_setB_self v.mmsi (updatedRow now v) store)
      rcases hlk with h | h
      · exact applyBatch_preserves_received_now now rest _ v.mmsi (updatedRow now v) h rfl
      · exact applyBatch_preserves_received_now now rest _ v.mmsi (insertedRow now v) h rfl
    · exact ih (upsertRow now store r) v hv

/-- C4: for every record written by a successful sink-writer transaction —
newly inserted or overwriting an existing row keyed by `vessel_id` — the
persisted row carries `received_at = now`, the server time at persistence.
(The insert path's `received_at` is the table default, modelled from the
spec as `NOW()`; see `insertedRow`.) -/
theorem C4_received_at_set_on_every_write (now : ℚ) (store : List (Int × StoredVessel))
    (st : SinkStats) (batch : List VesselRecord) (v : VesselRecord) (hv : v ∈ batch) :
    ∃ row, lookupB v.mmsi (batch_upsert false now store st batch).1 = some row ∧
      row.received_at = now := by
  have hne : batch ≠ [] := by
    intro h
    exact absurd (h ▸ hv) (List.not_mem_nil v)
  unfold batch_upsert
  rw [if_neg hne]
  exact applyBatch_received_now now batch store v hv

/-- Witness for C4: vessel 9 is new to an empty store (insert path) and
vessel 4 overwrites an existing row (update path); both end with
`received_at = 50`. -/
theorem C4_received_at_set_on_every_write_witness :
    (∃ row, lookupB 9 (batch_upsert false 50 [] ⟨0, 0, 0⟩
        [⟨9, 1, 2, none, none, none, [], [], 10⟩]).1 = some row ∧
      row.received_at = 50) ∧
    (∃ row, lookupB 4 (batch_upsert false 50
        [(4, ⟨4, 0, 0, (0, 0), none, none, none, [], [], 1, 7⟩)] ⟨0, 0, 0⟩
        [⟨4, 1, 2, none, none, none, [], [], 10⟩]).1 = some row ∧
      row.received_at = 50) :=
  ⟨C4_received_at_set_on_every_write 50 [] ⟨0, 0, 0⟩
      [⟨9, 1, 2, none, none, none, [], [], 10⟩]
      ⟨9, 1, 2, none, none, none, [], [], 10⟩ (by decide),
   C4_received_at_set_on_every_write 50
      [(4, ⟨4, 0, 0, (0, 0), none, none, none, [], [], 1, 7⟩)] ⟨0, 0, 0⟩
      [⟨4, 1, 2, none, none, none, [], [], 10⟩]
      ⟨4, 1, 2, none, none, none, [], [], 10⟩ (by decide)⟩

/-! ## C5: failed transaction rolls back, is discarded, is counted -/

/-- C5: when the sink writer's transaction fails on a non-empty batch, the
rollback leaves the store exactly as before (zero rows of the batch become
visible), the error counter is incremented, the success counters do not
move (the batch is discarded, not retried), and a subsequent successful
batch produces exactly the store it would have produced had the failure
never happened. -/
theorem C5_failed_batch_rolled_back (now now2 : ℚ) (store : List (Int × StoredVessel))
    (st : SinkStats) (batch batch2 : List VesselRecord) (hne : batch ≠ []) :
    (batch_upsert true now store st batch).1 = store ∧
    (batch_upsert true now store st batch).2.errors = st.errors + 1 ∧
    (batch_upsert true now store st batch).2.vessels_upserted = st.vessels_upserted ∧
    (batch_upsert true now store st batch).2.batches_processed = st.batches_processed ∧
    (batch_upsert false now2 (batch_upsert true now store st batch).1
        (batch_upsert true now store st batch).2 batch2).1
      = (batch_upsert false now2 store st batch2).1 := by
  unfold batch_upsert
  rw [if_neg hne]
  refine ⟨rfl, rfl, rfl, rfl, ?_⟩
  by_cases h2 : batch2 = [] <;> simp [h2]

/-- Witness for C5: a one-record batch fails against an empty store; the
next batch succeeds unaffected. -/
theorem C5_failed_batch_rolled_back_witness :
    (batch_upsert true 10 [] ⟨3, 8, 2⟩ [⟨9, 1, 2, none, none, none, [], [], 10⟩]).1 = [] ∧
    (batch_upsert true 10 [] ⟨3, 8, 2⟩
        [⟨9, 1, 2, none, none, none, [], [], 10⟩]).2.errors = 3 + 1 ∧
    (batch_upsert true 10 [] ⟨3, 8, 2⟩
        [⟨9, 1, 2, none, none, none, [], [], 10⟩]).2.vessels_upserted = 8 ∧
    (batch_upsert true 10 [] ⟨3, 8, 2⟩
        [⟨9, 1, 2, none, none, none, [], [], 10⟩]).2.batches_processed = 2 ∧
    (batch_upsert false 20 (batch_upsert true 10 [] ⟨3, 8, 2⟩
          [⟨9, 1, 2, none, none, none, [], [], 10⟩]).1
        (batch_upsert true 10 [] ⟨3, 8, 2⟩
          [⟨9, 1, 2, none, none, none, [], [], 10⟩]).2
        [⟨5, 1, 2, none, none, none, [], [], 11⟩]).1
      = (batch_upsert false 20 [] ⟨3, 8, 2⟩ [⟨5, 1, 2, none, none, none, [], [], 11⟩]).1 :=
  C5_failed_batch_rolled_back 10 20 [] ⟨3, 8, 2⟩
    [⟨9, 1, 2, none, none, none, [], [], 10⟩]
    [⟨5, 1, 2, none, none, none, [], [], 11⟩] (by decide)

/-! ## C7: reconnect backoff -/

theorem runBackoff_failures :
    ∀ (n : Nat) (d : Nat), d ≤ 60 →
      (runBackoff d (List.replicate n ConnEvent.failure)).2
        = (List.range n).map (fun k => min (d * 2 ^ k) 60) := by
  intro n
  induction n with
  | zero => intro d _; rfl
  | succ n ih =>
    intro d hd
    show (runBackoff d (ConnEvent.failure :: List.replicate n ConnEvent.failure)).2 = _
    have hstep : (runBackoff d (ConnEvent.failure :: List.replicate n ConnEvent.failure)).2
        = d :: (runBackoff (min (d * 2) 60) (List.replicate n ConnEvent.failure)).2 := rfl
    rw [hstep, ih (min (d * 2) 60) (by omega), List.range_succ_eq_map, List.map_cons,
      List.map_map]
    congr 1
    · simp [Nat.min_eq_left hd]
    · apply List.map_congr_left
      intro k _
      show min (min (d * 2) 60 * 2 ^ k) 60 = min (d * 2 ^ (k + 1)) 60
      have h2 : d * 2 ^ (k + 1) = d * 2 * 2 ^ k := by ring
      rcases Nat.le_total (d * 2) 60 with h | h
      · rw [Nat.min_eq_left h, h2]
      · rw [Nat.min_eq_right h, h2]
        have h60 : 60 ≤ d * 2 * 2 ^ k :=
          le_trans h (Nat.le_mul_of_pos_right _ (Nat.pos_pow_of_pos k (by omega)))
        have h60' : 60 ≤ 60 * 2 ^ k :=
          Nat.le_mul_of_pos_right _ (Nat.pos_pow_of_pos k (by omega))
        omega

theorem runBackoff_le_60 :
    ∀ (evts : List ConnEvent) (d : Nat), d ≤ 60 →
      (runBackoff d evts).1 ≤ 60 ∧ ∀ w ∈ (runBackoff d evts).2, w ≤ 60 := by
  intro evts
  induction evts with
  | nil => intro d hd; exact ⟨hd, by simp [runBackoff]⟩
  | cons e rest ih =>
    intro d hd
    match e with
    | ConnEvent.success =>
      have h := ih 5 (by omega)
      exact ⟨h.1, by simpa [runBackoff, backoffStep] using h.2⟩
    | ConnEvent.failure =>
      have h := ih (min (d * 2) 60) (by omega)
      refine ⟨h.1, ?_⟩
      intro w hw
      simp only [runBackoff, backoffStep, List.singleton_append, List.mem_cons] at hw
      rcases hw with hw | hw
      · omega
      · exact h.2 w hw

/-- C7: the stream client's reconnect delay starts at the base 5 s; after a
successful subscription followed by `n` consecutive connection failures the
successive waits are `min (5·2^k) 60` for `k = 0, 1, ...` — base, doubled on
each consecutive failure, capped at the 60 s ceiling — and no wait the loop
ever performs (from the initial delay 5) exceeds 60 s. -/
theorem C7_backoff_doubles_capped_resets :
    (∀ (d : Nat) (n : Nat),
      (runBackoff d (ConnEvent.success :: List.replicate n ConnEvent.failure)).2
        = (List.range n).map (fun k => min (5 * 2 ^ k) 60)) ∧
    (∀ (evts : List ConnEvent) (w : Nat), w ∈ (runBackoff 5 evts).2 → w ≤ 60) := by
  constructor
  · intro d n
    show (runBackoff 5 (List.replicate n ConnEvent.failure)).2 = _
    exact runBackoff_failures n 5 (by omega)
  · intro evts w hw
    exact (runBackoff_le_60 evts 5 (by omega)).2 w hw

/-- Witness for C7: after a success, five consecutive failures wait
5, 10, 20, 40, 60 seconds; the wait 10 is ≤ 60. -/
theorem C7_backoff_doubles_capped_resets_witness :
    (runBackoff 42 (ConnEvent.success :: List.replicate 5 ConnEvent.failure)).2
      = (List.range 5).map (fun k => min (5 * 2 ^ k) 60) ∧ (10 : Nat) ≤ 60 :=
  ⟨C7_backoff_doubles_capped_resets.1 42 5,
   C7_backoff_doubles_capped_resets.2 [ConnEvent.failure, ConnEvent.failure] 10 (by decide)⟩

/-! ## C8: the viewport query contract -/

theorem vesselMatches_iff (minLat maxLat minLon maxLon now : ℚ) (delta : Option ℚ)
    (r : StoredVessel) :
    vesselMatches minLat maxLat minLon maxLon now delta r = true ↔
      (minLat ≤ r.latitude ∧ r.latitude ≤ maxLat ∧
       minLon ≤ r.longitude ∧ r.longitude ≤ maxLon ∧
       now - 120 < r.last_updated ∧
       ∀ t, delta = some t → t < r.last_updated) := by
  rcases delta with _ | t <;>
    simp [vesselMatches, and_assoc]

/-- C8: for every viewport query, the rows the query service returns are
exactly the stored rows whose latitude and longitude lie inside the given
bounding box and whose `observed_at` (`last_updated` column) is strictly
newer than `now` minus 2 minutes, further restricted to `observed_at`
strictly greater than the caller-supplied timestamp when a delta timestamp
is given; the result is a permutation of that filtered set, ordered by
`observed_at` descending. -/
theorem C8_viewport_query_contract (rows : List StoredVessel)
    (minLat maxLat minLon maxLon now : ℚ) (delta : Option ℚ) :
    List.Sorted vesselDesc (get_vessels_query rows minLat maxLat minLon maxLon now delta) ∧
    List.Perm (get_vessels_query rows minLat maxLat minLon maxLon now delta)
      (rows.filter (vesselMatches minLat maxLat minLon maxLon now delta)) ∧
    (∀ r, r ∈ get_vessels_query rows minLat maxLat minLon maxLon now delta ↔
      (r ∈ rows ∧ minLat ≤ r.latitude ∧ r.latitude ≤ maxLat ∧
       minLon ≤ r.longitude ∧ r.longitude ≤ maxLon ∧
       now - 120 < r.last_updated ∧
       ∀ t, delta = some t → t < r.last_updated)) := by
  refine ⟨List.sorted_insertionSort vesselDesc _, List.perm_insertionSort vesselDesc _, ?_⟩
  intro r
  rw [get_vessels_query, List.mem_insertionSort, List.mem_filter, vesselMatches_iff]

/-- Witness for C8 at a concrete table: a fresh in-box row is returned
ahead of an older one; a stale row and an out-of-box row are not. -/
theorem C8_viewport_query_contract_witness :
    List.Sorted vesselDesc (get_vessels_query
      [⟨1, 5, 5, (5, 5), none, none, none, [], [], 1000, 0⟩,
       ⟨2, 5, 6, (6, 5), none, none, none, [], [], 1010, 0⟩,
       ⟨3, 50, 5, (5, 50), none, none, none, [], [], 1010, 0⟩,
       ⟨4, 5, 5, (5, 5), none, none, none, [], [], 800, 0⟩]
      0 10 0 10 1030 none) ∧
    List.Perm (get_vessels_query
      [⟨1, 5, 5, (5, 5), none, none, none, [], [], 1000, 0⟩,
       ⟨2, 5, 6, (6, 5), none, none, none, [], [], 1010, 0⟩,
       ⟨3, 50, 5, (5, 50), none, none, none, [], [], 1010, 0⟩,
       ⟨4, 5, 5, (5, 5), none, none, none, [], [], 800, 0⟩]
      0 10 0 10 1030 none)
      (List.filter (vesselMatches 0 10 0 10 1030 none)
        [⟨1, 5, 5, (5, 5), none, none, none, [], [], 1000, 0⟩,
         ⟨2, 5, 6, (6, 5), none, none, none, [], [], 1010, 0⟩,
         ⟨3, 50, 5, (5, 50), none, none, none, [], [], 1010, 0⟩,
         ⟨4, 5, 5, (5, 5), none, none, none, [], [], 800, 0⟩]) ∧
    (∀ r, r ∈ get_vessels_query
        [⟨1, 5, 5, (5, 5), none, none, none, [], [], 1000, 0⟩,
         ⟨2, 5, 6, (6, 5), none, none, none, [], [], 1010, 0⟩,
         ⟨3, 50, 5, (5, 50), none, none, none, [], [], 1010, 0⟩,
         ⟨4, 5, 5, (5, 5), none, none, none, [], [], 800, 0⟩]
        0 10 0 10 1030 none ↔
      (r ∈ [⟨1, 5, 5, (5, 5), none, none, none, [], [], 1000, 0⟩,
            ⟨2, 5, 6, (6, 5), none, none, none, [], [], 1010, 0⟩,
            ⟨3, 50, 5, (5, 50), none, none, none, [], [], 1010, 0⟩,
            ⟨4, 5, 5, (5, 5), none, none, none, [], [], 800, 0⟩] ∧
       0 ≤ r.latitude ∧ r.latitude ≤ 10 ∧ 0 ≤ r.longitude ∧ r.longitude ≤ 10 ∧
       (1030 : ℚ) - 120 < r.last_updated ∧
       ∀ t, (none : Option ℚ) = some t → t < r.last_updated)) :=
  C8_viewport_query_contract
    [⟨1, 5, 5, (5, 5), none, none, none, [], [], 1000, 0⟩,
     ⟨2, 5, 6, (6, 5), none, none, none, [], [], 1010, 0⟩,
     ⟨3, 50, 5, (5, 50), none, none, none, [], [], 1010, 0⟩,
     ⟨4, 5, 5, (5, 5), none, none, none, [], [], 800, 0⟩]
    0 10 0 10 1030 none

/-! ## C10: invalid `lastUpdateTime` is silently ignored -/

/-- C10: when the `lastUpdateTime` query parameter is present but does not
parse as an ISO-8601 timestamp, the request does not fail: no delta filter
is applied, the result equals the full (non-delta) result for the same
viewport, and the response's `is_delta` flag is `false`. -/
theorem C10_invalid_last_update_time_ignored (parseIso : String → Option ℚ)
    (rows : List StoredVessel) (minLat maxLat minLon maxLon now : ℚ) (s : String)
    (hbad : parseIso s = none) :
    get_vessels parseIso rows minLat maxLat minLon maxLon now (some s)
      = (get_vessels_query rows minLat maxLat minLon maxLon now none, false) ∧
    get_vessels parseIso rows minLat maxLat minLon maxLon now (some s)
      = get_vessels parseIso rows minLat maxLat minLon maxLon now none := by
  simp [get_vessels, parse_last_update_time, hbad]

/-- Witness for C10 with a parser that rejects the given string. -/
theorem C10_invalid_last_update_time_ignored_witness :
    get_vessels (fun _ => none)
        [⟨1, 5, 5, (5, 5), none, none, none, [], [], 1000, 0⟩]
        0 10 0 10 1030 (some "not-a-timestamp")
      = (get_vessels_query [⟨1, 5, 5, (5, 5), none, none, none, [], [], 1000, 0⟩]
          0 10 0 10 1030 none, false) ∧
    get_vessels (fun _ => none)
        [⟨1, 5, 5, (5, 5), none, none, none, [], [], 1000, 0⟩]
        0 10 0 10 1030 (some "not-a-timestamp")
      = get_vessels (fun _ => none)
          [⟨1, 5, 5, (5, 5), none, none, none, [], [], 1000, 0⟩]
          0 10 0 10 1030 none :=
  C10_invalid_last_update_time_ignored (fun _ => none)
    [⟨1, 5, 5, (5, 5), none, none, none, [], [], 1000, 0⟩]
    0 10 0 10 1030 "not-a-timestamp" rfl

end Orca
